import Mathlib

/-!
Verification of the procedural bonsai-tree generator of this repository.

The source bundles two rendering paths with a common hash primitive:

* a 2D canvas path (`drawBranch` / `getDnaFloat` in `TreeRender.tsx`,
  canvas variant), and
* a 3D recursive mesh path (`Branch` / `getDnaRandom` in `TreeRender.tsx`,
  three.js variant),

plus the genetic-history encoder `generateDNASegment` in the application file.

Modelling conventions:

* JS strings are lists of UTF-16 code units (`List Nat`); every string in
  the repository is ASCII, so `Char.toNat` agrees with `charCodeAt`.
* 32-bit JS integer operations (`Math.imul`, `^`, `>>>`) act on the
  unsigned 32-bit bit pattern, modelled as `Nat` below `2 ^ 32`.
* JS number arithmetic on the generator's geometric quantities is modelled
  by exact rational arithmetic (`ℚ`); every constant in the source is a
  short decimal literal, written here as `mkRat`.
* `Math.random()` (used only by the encoder and by render-time leaf sway)
  is an external oracle; the encoder takes the drawn string as an input.
* Recursive tree construction is modelled with an explicit fuel argument;
  all call sites pass fuel strictly larger than the recursion depth bound
  of the source (`maxDepth + 1` levels at most), so the fuel-exhaustion
  branch is unreachable.
* Time-dependent animation terms (wind sway, leaf sway) are layered on top
  of the structure at render time in the source and are not part of the
  structural output modelled here.
-/

/-- Code units of an ASCII string literal, as `charCodeAt` would yield them. -/
def jsStr (s : String) : List Nat := s.data.map Char.toNat

/-- `Math.imul`: 32-bit integer multiplication, on unsigned bit patterns. -/
def imul32 (a b : Nat) : Nat := (a * b) % 4294967296

/-- The character loop of `cyrb53`:
`h1 = imul(h1 ^ ch, 2654435761); h2 = imul(h2 ^ ch, 1597334677)`. -/
def cyrbLoop : List Nat → Nat × Nat → Nat × Nat
  | [], s => s
  | ch :: rest, (h1, h2) =>
      cyrbLoop rest (imul32 (Nat.xor h1 ch) 2654435761, imul32 (Nat.xor h2 ch) 1597334677)

/-- `cyrb53(str)` with the default seed 0 (no call site passes a seed):
starts from `0xdeadbeef ^ 0` and `0x41c6ce57 ^ 0`, runs the character loop,
applies the final avalanche, and returns
`4294967296 * (2097151 & h2) + (h1 >>> 0)`. -/
def cyrb53 (str : List Nat) : Nat :=
  let s := cyrbLoop str (0xdeadbeef, 0x41c6ce57)
  let h1 := s.1
  let h2 := s.2
  let h1a := Nat.xor (imul32 (Nat.xor h1 (h1 / 65536)) 2246822507)
                     (imul32 (Nat.xor h2 (h2 / 8192)) 3266489909)
  let h2a := Nat.xor (imul32 (Nat.xor h2 (h2 / 65536)) 2246822507)
                     (imul32 (Nat.xor h1a (h1a / 8192)) 3266489909)
  4294967296 * (Nat.land h2a 2097151) + h1a

/-- Little-endian decimal digits (as char codes) of `n`, with structural fuel. -/
def decDigitsAux : Nat → Nat → List Nat
  | 0, _ => []
  | _ + 1, 0 => []
  | fuel + 1, n + 1 => ((n + 1) % 10 + 48) :: decDigitsAux fuel ((n + 1) / 10)

/-- JS `String(n)` for a non-negative integer: decimal digits, `"0"` for 0. -/
def decNat (n : Nat) : List Nat :=
  if n = 0 then [48] else (decDigitsAux n n).reverse

/-- Value of a little-endian list of decimal digit char codes. -/
def ofDigLE : List Nat → Nat
  | [] => 0
  | c :: cs => (c - 48) + 10 * ofDigLE cs

/-- Is a char code a decimal digit (`'0'`..`'9'`)? -/
def isDigitCh (c : Nat) : Bool := 48 ≤ c && c ≤ 57

/-- JS truthy array indexing `dna[i]`: `none` for an out-of-range index or
an empty string (both falsy in the `||` chains of the source). -/
def truthyGet (dna : List (List Nat)) (i : Int) : Option (List Nat) :=
  if h : 0 ≤ i ∧ i.toNat < dna.length then
    (if dna.get ⟨i.toNat, h.2⟩ = [] then none else some (dna.get ⟨i.toNat, h.2⟩))
  else none

/-- Segment selection of the 3D `getDnaRandom`:
`segmentIndex = Math.min(Math.floor(depth / 2), dna.length - 1)` followed by
`dna[segmentIndex] || dna[0] || 'DEFAULT'`. -/
def segmentFor3 (dna : List (List Nat)) (depth : Nat) : List Nat :=
  let segmentIndex : Int := min ((depth / 2 : Nat) : Int) ((dna.length : Int) - 1)
  (truthyGet dna segmentIndex).getD ((truthyGet dna 0).getD (jsStr "DEFAULT"))

/-- Hash input of the 3D `getDnaRandom`: the JS string `segment + depth + offset`. -/
def dnaKey3 (dna : List (List Nat)) (depth offset : Nat) : List Nat :=
  segmentFor3 dna depth ++ decNat depth ++ decNat offset

/-- Numerator of the 3D float stream: `cyrb53(segment + depth + offset) % 1000`. -/
def getDnaRandomNum (dna : List (List Nat)) (depth offset : Nat) : Nat :=
  cyrb53 (dnaKey3 dna depth offset) % 1000

/-- The 3D float stream `getDnaRandom(dna, depth, offset) = (val % 1000) / 1000`. -/
def getDnaRandom (dna : List (List Nat)) (depth offset : Nat) : ℚ :=
  mkRat (getDnaRandomNum dna depth offset) 1000

/-- Per-node geometric data of one rendered `Branch` (3D path): the props and
mesh parameters it renders with.  `nextRadius` is the cylinder's top radius,
`foliageShift` the leaf-color lightness shift attached at terminal nodes. -/
structure BranchGeom where
  position : ℚ × ℚ × ℚ
  rotation : ℚ × ℚ × ℚ
  length : ℚ
  radius : ℚ
  nextRadius : ℚ
  depth : Nat
  isEnd : Bool
  foliageShift : Option ℚ
deriving Repr, DecidableEq

/-- The branch tree produced by recursively mounting `Branch` components. -/
inductive BranchNode where
  | node : BranchGeom → List BranchNode → BranchNode
deriving Repr

/-- The recursive 3D `Branch` component.  Returns `none` exactly when the
pruning test `depth > 1 && getDnaRandom(dna, depth, 300 + pruneState) > 0.85`
omits the node (the source returns `null`).  The fuel argument only bounds
recursion; every call below passes `maxDepth + 1`, which is never exhausted
because children are spawned only while `depth < maxDepth`. -/
def genBranch (dna : List (List Nat)) (prune : Nat) (wire : ℚ) (maxDepth : Nat) :
    Nat → (ℚ × ℚ × ℚ) → (ℚ × ℚ × ℚ) → ℚ → ℚ → Nat → Option BranchNode
  | 0, _, _, _, _, _ => none
  | fuel + 1, position, rotation, length, radius, depth =>
    if depth > 1 ∧ getDnaRandom dna depth (300 + prune) > mkRat 85 100 then none
    else
      let isEnd : Bool := maxDepth ≤ depth
      let rndStructure := getDnaRandom dna depth 100
      let rndAngle := getDnaRandom dna depth 200
      let curveMod := wire * mkRat 2 10
      let nextLength := length * (mkRat 75 100 + rndStructure * mkRat 1 10)
      let nextRadius := radius * mkRat 7 10
      let children : List BranchNode :=
        if isEnd then []
        else
          (List.range 2).filterMap (fun i =>
            let angleVariance := rndAngle * mkRat 6 10 - mkRat 3 10
            let angleOffset := (if i = 0 then mkRat 6 10 else -(mkRat 6 10)) + angleVariance + curveMod
            let rotX := getDnaRandom dna (depth + 1) (i * 50) * mkRat 6 10
            genBranch dna prune wire maxDepth fuel (0, length, 0) (rotX, 0, angleOffset)
              nextLength nextRadius (depth + 1))
      some (.node
        ⟨position, rotation, length, radius, nextRadius, depth, isEnd,
          if isEnd then some ((getDnaRandom dna maxDepth 999 - mkRat 1 2) * mkRat 1 10) else none⟩
        children)

/-- `GrowthStage` of `types.ts`. -/
inductive GrowthStage where
  | SEED | SAPLING | ADULT | MASTER
deriving Repr, DecidableEq

/-- `TreeSpecies` of `types.ts`. -/
inductive TreeSpecies where
  | PINE | MAPLE | CHERRY | OAK
deriving Repr, DecidableEq

/-- The fields of `TreeData` a render frame can see. -/
structure TreeRec where
  species : TreeSpecies
  stage : GrowthStage
  age : ℚ
  water : ℚ
  fertilizer : ℚ
  health : ℚ
  seedValue : ℚ
  pruningCount : Nat
  wiringState : Nat
  dna : List (List Nat)
  name : List Nat

/-- `complexity` of the 3D `TreeRender`: SEED 0, SAPLING 3, ADULT 5, MASTER 7. -/
def complexity3D : GrowthStage → Nat
  | .SEED => 0
  | .SAPLING => 3
  | .ADULT => 5
  | .MASTER => 7

/-- Structural output of the 3D `TreeRender`: either the dedicated
`SeedObject` visual (capsule radius / height derived from one DNA draw) or a
branch tree rooted at the `Branch` mounted with `depth = 0`. -/
inductive TreeVisual where
  | seedVisual (capsuleRadius capsuleHeight : ℚ)
  | branches (root : Option BranchNode)
deriving Repr

/-- The 3D `TreeRender` body: SEED mounts `SeedObject` (capsule args
`0.15 + h * 0.05` and `0.3 + h * 0.1` with `h = getDnaRandom(dna, 0, 1)`),
any other stage mounts the root `Branch` with `length 1.5`, `radius 0.3`,
`depth 0`, `maxDepth = complexity`. -/
def genTreeVisual (r : TreeRec) : TreeVisual :=
  if r.stage = .SEED then
    let seedHash := getDnaRandom r.dna 0 1
    .seedVisual (mkRat 15 100 + seedHash * mkRat 5 100) (mkRat 3 10 + seedHash * mkRat 1 10)
  else
    .branches (genBranch r.dna r.pruningCount (r.wiringState : ℚ) (complexity3D r.stage)
      (complexity3D r.stage + 1) (0, 0, 0) (0, 0, 0) (mkRat 3 2) (mkRat 3 10) 0)

/-- Segment index of the 2D `getDnaFloat`:
`Math.floor(cursor / 10) % (dna?.length || 1)`. -/
def segIdx2 (dna : List (List Nat)) (cursor : Nat) : Nat :=
  (cursor / 10) % (if dna.length = 0 then 1 else dna.length)

/-- Segment selection of the 2D `getDnaFloat`:
`(dna && dna[segmentIdx]) ? dna[segmentIdx] : 'SEED'`. -/
def segmentFor2 (dna : List (List Nat)) (cursor : Nat) : List Nat :=
  match dna.get? (segIdx2 dna cursor) with
  | some s => if s = [] then jsStr "SEED" else s
  | none => jsStr "SEED"

/-- Hash input of the 2D `getDnaFloat`: the template string `segment-cursor`. -/
def dnaKey2 (dna : List (List Nat)) (cursor : Nat) : List Nat :=
  segmentFor2 dna cursor ++ [45] ++ decNat cursor

/-- Numerator of the 2D float stream. -/
def getDnaFloatNum (dna : List (List Nat)) (cursor : Nat) : Nat :=
  cyrb53 (dnaKey2 dna cursor) % 1000

/-- The 2D float stream `getDnaFloat(dna, cursor) = (val % 1000) / 1000`. -/
def getDnaFloat (dna : List (List Nat)) (cursor : Nat) : ℚ :=
  mkRat (getDnaFloatNum dna cursor) 1000

/-- Species angular spread of the 2D child loop: 0.8 default, 0.6 pine, 1.0 oak. -/
def spreadOf : TreeSpecies → ℚ
  | .PINE => mkRat 6 10
  | .OAK => 1
  | _ => mkRat 8 10

/-- Structural per-call data of the 2D `drawBranch`: stroke width, static
curvature control point, the rotation applied by the parent before the call
(`entryAngle`, time-independent part), and whether a leaf is drawn at the tip
(band test and DNA roll).  Time-dependent sway terms are animation, not
structure. -/
structure CanvasGeom where
  len : ℚ
  depth : Nat
  cursor : Nat
  width : ℚ
  staticCurve : ℚ
  entryAngle : ℚ
  hasLeaf : Bool
deriving Repr, DecidableEq

/-- The call tree of the recursive 2D `drawBranch`. -/
inductive CanvasNode where
  | node : CanvasGeom → List CanvasNode → CanvasNode
deriving Repr

/-- The recursive 2D `drawBranch`: width `max(1, (maxDepth - depth) * 3)`,
static curve `(getDnaFloat(dna, cursor + 1) - 0.5) * 20 * (len / 100)`, leaf
iff `(depth > maxDepth - 3 || depth === maxDepth) && getDnaFloat(dna, cursor + 99) > 0.4`,
and for `depth < maxDepth` a fan of `floor(getDnaFloat(dna, cursor + 2) * 2) + 2`
children with per-child variance, decay and cursor `cursor + 100 + i * 50`. -/
def drawBranchT (dna : List (List Nat)) (species : TreeSpecies) (maxDepth : Nat) :
    Nat → ℚ → Nat → Nat → ℚ → CanvasNode
  | 0, len, depth, cursor, entry =>
    .node ⟨len, depth, cursor,
      max 1 (((maxDepth : ℤ) - (depth : ℤ)) * 3 : ℤ),
      (getDnaFloat dna (cursor + 1) - mkRat 1 2) * 20 * (len * mkRat 1 100),
      entry,
      (decide ((depth : ℤ) > (maxDepth : ℤ) - 3) || decide (depth = maxDepth)) &&
        decide (getDnaFloat dna (cursor + 99) > mkRat 4 10)⟩ []
  | fuel + 1, len, depth, cursor, entry =>
    let children : List CanvasNode :=
      if depth < maxDepth then
        let branchCount := (⌊getDnaFloat dna (cursor + 2) * 2⌋).toNat + 2
        (List.range branchCount).map (fun i =>
          let variance := (getDnaFloat dna (cursor + 10 + i) - mkRat 1 2) * mkRat 1 2
          let baseAngle := (mkRat i (branchCount - 1) - mkRat 1 2) * spreadOf species * 2
          let decay := mkRat 7 10 + getDnaFloat dna (cursor + 20 + i) * mkRat 1 10
          drawBranchT dna species maxDepth fuel (len * decay) (depth + 1)
            (cursor + 100 + i * 50) (baseAngle + variance))
      else []
    .node ⟨len, depth, cursor,
      max 1 (((maxDepth : ℤ) - (depth : ℤ)) * 3 : ℤ),
      (getDnaFloat dna (cursor + 1) - mkRat 1 2) * 20 * (len * mkRat 1 100),
      entry,
      (decide ((depth : ℤ) > (maxDepth : ℤ) - 3) || decide (depth = maxDepth)) &&
        decide (getDnaFloat dna (cursor + 99) > mkRat 4 10)⟩ children

/-- `complexity` of the 2D `TreeRender`: SEED 0, SAPLING 4, ADULT 7, MASTER 9. -/
def complexity2D : GrowthStage → Nat
  | .SEED => 0
  | .SAPLING => 4
  | .ADULT => 7
  | .MASTER => 9

/-- Structural output of the 2D `TreeRender`: the fixed `drawSeed` visual for
SEED, otherwise the `drawBranch` call tree started at
`len 140, depth 1, cursor 0`. -/
inductive CanvasVisual where
  | seed2D
  | canvas (root : CanvasNode)
deriving Repr

/-- The 2D `TreeRender` frame body (structure only). -/
def genCanvas (r : TreeRec) : CanvasVisual :=
  if r.stage = .SEED then .seed2D
  else .canvas (drawBranchT r.dna r.species (complexity2D r.stage)
    (complexity2D r.stage + 1) 140 1 0 0)

/-- Little-endian hexadecimal digits (as char codes, uppercase letters). -/
def hexDigitsAux : Nat → Nat → List Nat
  | 0, _ => []
  | _ + 1, 0 => []
  | fuel + 1, n + 1 =>
      (if (n + 1) % 16 < 10 then (n + 1) % 16 + 48 else (n + 1) % 16 + 55) ::
        hexDigitsAux fuel ((n + 1) / 16)

/-- `n.toString(16).toUpperCase()` for a non-negative integer. -/
def natHexUpper (n : Nat) : List Nat :=
  if n = 0 then [48] else (hexDigitsAux n n).reverse

/-- `i.toString(16).toUpperCase()` for a JS integer (sign prefix if negative). -/
def intHexUpperJS (i : Int) : List Nat :=
  if i < 0 then 45 :: natHexUpper i.natAbs else natHexUpper i.toNat

/-- `.padStart(2, '0')`. -/
def padStart2Zero (s : List Nat) : List Nat :=
  if 2 ≤ s.length then s else List.replicate (2 - s.length) 48 ++ s

/-- `.toUpperCase()` on code units (ASCII letters only, as in the source data). -/
def jsToUpper (s : List Nat) : List Nat :=
  s.map (fun c => if 97 ≤ c ∧ c ≤ 122 then c - 32 else c)

/-- `generateDNASegment(prefix, stats?)`.  The one non-deterministic input,
`Math.random().toString(36)`, is passed in as the drawn string `rndStr`; the
source takes `substring(2, 6)` (no stats) or `substring(2, 4)` (with stats)
of it and uppercases.  With stats it encodes each vital as
`Math.floor(v).toString(16).toUpperCase().padStart(2, '0')` and returns
`EVO-{h}{w}{f}-{rnd}`; without stats it returns `prefix-{rnd4}`. -/
def generateDNASegment (pfx : List Nat) (stats : Option (ℚ × ℚ × ℚ))
    (rndStr : List Nat) : List Nat :=
  match stats with
  | none => pfx ++ [45] ++ jsToUpper ((rndStr.drop 2).take 4)
  | some (health, water, fertilizer) =>
    let h := padStart2Zero (intHexUpperJS ⌊health⌋)
    let w := padStart2Zero (intHexUpperJS ⌊water⌋)
    let f := padStart2Zero (intHexUpperJS ⌊fertilizer⌋)
    let rnd := jsToUpper ((rndStr.drop 2).take 2)
    jsStr "EVO-" ++ h ++ w ++ f ++ [45] ++ rnd

/-- Value of a big-endian list of hexadecimal digit char codes. -/
def hexValBE (s : List Nat) : Nat :=
  s.foldl (fun a c => 16 * a + (if c < 58 then c - 48 else c - 55)) 0

/-- Is a char code an uppercase hexadecimal digit? -/
def isHexUpperCh (c : Nat) : Bool := (48 ≤ c && c ≤ 57) || (65 ≤ c && c ≤ 70)

/-- Is a char code an uppercase base-36 digit? -/
def isBase36UpperCh (c : Nat) : Bool := (48 ≤ c && c ≤ 57) || (65 ≤ c && c ≤ 90)

/-- Is a char code a lowercase base-36 digit (as `toString(36)` emits)? -/
def isBase36LowerCh (c : Nat) : Bool := (48 ≤ c && c ≤ 57) || (97 ≤ c && c ≤ 122)

/-- Number of nodes of a branch tree (fuel bounds the traversed height). -/
def countNodes : Nat → Option BranchNode → Nat
  | 0, _ => 0
  | _, none => 0
  | fuel + 1, some (.node _ cs) => 1 + (cs.map (fun c => countNodes fuel (some c))).sum

/-- Number of branch nodes of a 3D structural output. -/
def countTV : TreeVisual → Nat
  | .seedVisual _ _ => 0
  | .branches t => countNodes 100 t

/-- Does the seed visual appear (rather than a branch tree)? -/
def isSeedVis : TreeVisual → Bool
  | .seedVisual _ _ => true
  | .branches _ => false

/-- All nodes of the tree have depth at most `k`; `false` on fuel exhaustion,
so a `true` result certifies the whole tree regardless of the fuel used. -/
def depthLeB (k : Nat) : Nat → BranchNode → Bool
  | 0, _ => false
  | fuel + 1, .node g cs => decide (g.depth ≤ k) && cs.all (fun c => depthLeB k fuel c)

/-- `depthLeB` lifted to the optional (possibly pruned) root. -/
def depthLeO (k fuel : Nat) : Option BranchNode → Bool
  | none => true
  | some t => depthLeB k fuel t

/-- The 3D depth-bound check for one record. -/
def tvDepthOK (r : TreeRec) : Bool :=
  match genTreeVisual r with
  | .seedVisual _ _ => true
  | .branches t => depthLeO (complexity3D r.stage) (complexity3D r.stage + 1) t

/-- All nodes of the 2D call tree have depth at most `k`. -/
def cDepthLeB (k : Nat) : Nat → CanvasNode → Bool
  | 0, _ => false
  | fuel + 1, .node g cs => decide (g.depth ≤ k) && cs.all (fun c => cDepthLeB k fuel c)

/-- The 2D depth-bound check for one record. -/
def cvDepthOK (r : TreeRec) : Bool :=
  match genCanvas r with
  | .seed2D => true
  | .canvas t => cDepthLeB (complexity2D r.stage) (complexity2D r.stage + 2) t

/-- Every child strictly shrinks in both length and radius, throughout the
tree; `false` on fuel exhaustion, so `true` certifies the whole tree. -/
def decayOKB : Nat → BranchNode → Bool
  | 0, _ => false
  | fuel + 1, .node g cs =>
      cs.all (fun c => match c with
        | .node cg _ => decide (cg.length < g.length) && decide (cg.radius < g.radius)) &&
      cs.all (fun c => decayOKB fuel c)

/-- `decayOKB` lifted to the optional root. -/
def decayOKO (fuel : Nat) : Option BranchNode → Bool
  | none => true
  | some t => decayOKB fuel t

/-- Drop everything strictly below depth 1: children of nodes at depth ≥ 1
are removed, so only the trunk and its direct children remain. -/
def trunc1B : Nat → BranchNode → BranchNode
  | 0, t => t
  | fuel + 1, .node g cs => .node g (if 1 ≤ g.depth then [] else cs.map (trunc1B fuel))

/-- Depth-≤-1 truncation of a 3D structural output. -/
def tvTrunc : TreeVisual → TreeVisual
  | .seedVisual a b => .seedVisual a b
  | .branches t => .branches (t.map (trunc1B 2))

/-- Add `δ` to the z-rotation of every node of the tree. -/
def addRotZ (δ : ℚ) : Nat → BranchNode → BranchNode
  | 0, t => t
  | fuel + 1, .node g cs =>
      .node ⟨g.position, (g.rotation.1, g.rotation.2.1, g.rotation.2.2 + δ), g.length,
        g.radius, g.nextRadius, g.depth, g.isEnd, g.foliageShift⟩
        (cs.map (addRotZ δ fuel))

/-- Add `δ` to the z-rotation of every node except the root (whose rotation
is the fixed mount argument `[0, 0, 0]` in the source). -/
def shearTV (δ : ℚ) (fuel : Nat) : TreeVisual → TreeVisual
  | .seedVisual a b => .seedVisual a b
  | .branches t =>
      .branches (t.map (fun n => match n with
        | .node g cs => .node g (cs.map (addRotZ δ fuel))))

/-- Lengths of the root's direct children, in order. -/
def rootChildLens : TreeVisual → List ℚ
  | .branches (some (.node _ cs)) => cs.map (fun c => match c with | .node g _ => g.length)
  | _ => []

/-- Rotations of all nodes at depth `d`, in traversal order. -/
def rotsAtDepth (d : Nat) : Nat → Option BranchNode → List (ℚ × ℚ × ℚ)
  | 0, _ => []
  | _, none => []
  | fuel + 1, some (.node g cs) =>
      (if g.depth = d then [g.rotation] else []) ++
        cs.flatMap (fun c => rotsAtDepth d fuel (some c))

/-- Rotations at depth `d` of a 3D structural output. -/
def rotsTV (d : Nat) : TreeVisual → List (ℚ × ℚ × ℚ)
  | .branches t => rotsAtDepth d 100 t
  | .seedVisual _ _ => []

/-- Is there a node at depth `k`? -/
def existsDepthB (k : Nat) : Nat → BranchNode → Bool
  | 0, _ => false
  | fuel + 1, .node g cs => decide (g.depth = k) || cs.any (fun c => existsDepthB k fuel c)

/-- Modelled from the spec (§4.2): the claimed DNA accessor
`dnaHistory[floor(depth / K) mod len(dnaHistory)]` with stride `K = 2`,
for comparison with the source's `segmentFor3`. -/
def segmentForSpecMod (dna : List (List Nat)) (depth : Nat) : List Nat :=
  if dna.length = 0 then jsStr "DEFAULT"
  else dna.getD ((depth / 2) % dna.length) (jsStr "DEFAULT")

/-- A convenience record with the given DNA, pruning count, wiring state and
stage (the other fields are irrelevant to generation). -/
def mkRec (dna : List (List Nat)) (p w : Nat) (st : GrowthStage) : TreeRec :=
  ⟨.PINE, st, 0, 50, 50, 100, 0, p, w, dna, []⟩

/-- `mkRec` with a replaced pruning count. -/
def setPrune (r : TreeRec) (n : Nat) : TreeRec :=
  ⟨r.species, r.stage, r.age, r.water, r.fertilizer, r.health, r.seedValue,
    n, r.wiringState, r.dna, r.name⟩

/-- `mkRec` with a replaced wiring state. -/
def setWire (r : TreeRec) (n : Nat) : TreeRec :=
  ⟨r.species, r.stage, r.age, r.water, r.fertilizer, r.health, r.seedValue,
    r.pruningCount, n, r.dna, r.name⟩

/-- The 3D strict-decay check for one record (trunk starts at length 1.5,
radius 0.3, both positive). -/
def tvDecayOK (r : TreeRec) : Bool :=
  match genTreeVisual r with
  | .seedVisual _ _ => true
  | .branches t => decayOKO (complexity3D r.stage + 1) t

/-- Does the 3D structural output contain a branch node at depth `k`? -/
def tvHasDepth (k : Nat) : TreeVisual → Bool
  | .branches (some t) => existsDepthB k 20 t
  | _ => false

/-! ### Decimal rendering lemmas -/

/-- `decDigitsAux` produces the little-endian digits of `n`: folding them back
with `ofDigLE` recovers `n`, provided the fuel is adequate. -/
theorem ofDigLE_decDigitsAux : ∀ fuel n, n ≤ fuel → ofDigLE (decDigitsAux fuel n) = n := by
  intro fuel
  induction fuel with
  | zero =>
    intro n hn
    interval_cases n
    simp [decDigitsAux, ofDigLE]
  | succ fuel ih =>
    intro n hn
    match n with
    | 0 => simp [decDigitsAux, ofDigLE]
    | m + 1 =>
      have hdiv : (m + 1) / 10 ≤ fuel := by
        have := Nat.div_lt_self (Nat.succ_pos m) (by norm_num : 1 < 10)
        omega
      simp only [decDigitsAux, ofDigLE, ih _ hdiv]
      omega

/-- JS decimal rendering of non-negative integers is injective. -/
theorem decNat_inj : ∀ a b : Nat, decNat a = decNat b → a = b := by
  intro a b h
  unfold decNat at h
  by_cases ha : a = 0 <;> by_cases hb : b = 0 <;> simp [ha, hb] at h ⊢
  · have := ofDigLE_decDigitsAux b b le_rfl
    rw [show decDigitsAux b b = [48] from by
      have := congrArg List.reverse h
      simpa using this.symm] at this
    simp [ofDigLE] at this
    omega
  · have := ofDigLE_decDigitsAux a a le_rfl
    rw [show decDigitsAux a a = [48] from by
      have := congrArg List.reverse h
      simpa using this] at this
    simp [ofDigLE] at this
    omega
  · calc a = ofDigLE (decDigitsAux a a) := (ofDigLE_decDigitsAux a a le_rfl).symm
    _ = ofDigLE (decDigitsAux b b) := by rw [h]
    _ = b := ofDigLE_decDigitsAux b b le_rfl

/-- Every char code of `decDigitsAux` is a decimal digit code. -/
theorem decDigitsAux_digits : ∀ fuel n c, c ∈ decDigitsAux fuel n → isDigitCh c = true := by
  intro fuel
  induction fuel with
  | zero => intro n c hc; simp [decDigitsAux] at hc
  | succ fuel ih =>
    intro n c hc
    match n with
    | 0 => simp [decDigitsAux] at hc
    | m + 1 =>
      simp only [decDigitsAux, List.mem_cons] at hc
      rcases hc with hc | hc
      · have : (m + 1) % 10 < 10 := Nat.mod_lt _ (by norm_num)
        subst hc
        simp only [isDigitCh, Bool.and_eq_true, decide_eq_true_eq]
        omega
      · exact ih _ _ hc

/-- Every char code of `decNat n` is a decimal digit code. -/
theorem decNat_digits (n c : Nat) (hc : c ∈ decNat n) : isDigitCh c = true := by
  unfold decNat at hc
  by_cases hn : n = 0
  · simp [hn] at hc
    subst hc
    decide
  · simp only [hn, if_false, List.mem_reverse] at hc
    exact decDigitsAux_digits n n c hc

/-- `takeWhile` over a list of satisfying elements followed by a sentinel. -/
theorem takeWhile_append_sentinel (p : Nat → Bool) :
    ∀ (xs : List Nat) (y : Nat) (ys : List Nat), (∀ x ∈ xs, p x = true) → p y = false →
      List.takeWhile p (xs ++ y :: ys) = xs := by
  intro xs
  induction xs with
  | nil => intro y ys _ hy; simp [List.takeWhile, hy]
  | cons x xs ih =>
    intro y ys hxs hy
    have hx : p x = true := hxs x (by simp)
    simp only [List.cons_append, List.takeWhile_cons, hx]
    rw [ih y ys (fun z hz => hxs z (by simp [hz])) hy]
    simp

/-- In a string of the form `a ++ "-" ++ digits`, the digit suffix is
determined: two such strings are equal only if their digit suffixes agree. -/
theorem sep_digit_suffix_inj (a b d1 d2 : List Nat)
    (h1 : ∀ c ∈ d1, isDigitCh c = true) (h2 : ∀ c ∈ d2, isDigitCh c = true)
    (h : a ++ 45 :: d1 = b ++ 45 :: d2) : d1 = d2 := by
  have hrev := congrArg List.reverse h
  simp only [List.reverse_append, List.reverse_cons] at hrev
  have e1 : d1.reverse ++ [45] ++ a.reverse = d1.reverse ++ 45 :: a.reverse := by
    simp
  have e2 : d2.reverse ++ [45] ++ b.reverse = d2.reverse ++ 45 :: b.reverse := by
    simp
  rw [e1, e2] at hrev
  have t1 : List.takeWhile isDigitCh (d1.reverse ++ 45 :: a.reverse) = d1.reverse :=
    takeWhile_append_sentinel isDigitCh _ _ _
      (fun c hc => h1 c (List.mem_reverse.mp hc)) (by decide)
  have t2 : List.takeWhile isDigitCh (d2.reverse ++ 45 :: b.reverse) = d2.reverse :=
    takeWhile_append_sentinel isDigitCh _ _ _
      (fun c hc => h2 c (List.mem_reverse.mp hc)) (by decide)
  have : d1.reverse = d2.reverse := by rw [← t1, ← t2, hrev]
  simpa using congrArg List.reverse this

/-! ### Hash-key separation lemmas -/

/-- Two 3D hash keys at the same depth and DNA agree only for equal offsets:
the shared prefix `segment + depth` cancels and decimal rendering is injective. -/
theorem dnaKey3_inj_offset (dna : List (List Nat)) (d o1 o2 : Nat)
    (h : dnaKey3 dna d o1 = dnaKey3 dna d o2) : o1 = o2 := by
  unfold dnaKey3 at h
  rw [List.append_assoc, List.append_assoc] at h
  have h2 := List.append_cancel_left h
  exact decNat_inj o1 o2 (List.append_cancel_left h2)

/-- Two 2D hash keys with the same DNA agree only for equal cursors: the
cursor is the maximal digit suffix after the final separator. -/
theorem dnaKey2_inj_cursor (dna : List (List Nat)) (c1 c2 : Nat)
    (h : dnaKey2 dna c1 = dnaKey2 dna c2) : c1 = c2 := by
  unfold dnaKey2 at h
  rw [List.append_assoc, List.append_assoc] at h
  simp only [List.singleton_append] at h
  exact decNat_inj c1 c2
    (sep_digit_suffix_inj _ _ _ _ (fun c hc => decNat_digits c1 c hc)
      (fun c hc => decNat_digits c2 c hc) h)

/-! ### Float stream range -/

/-- The 3D float stream always lies in `[0, 1)`. -/
theorem getDnaRandom_range (dna : List (List Nat)) (d o : Nat) :
    0 ≤ getDnaRandom dna d o ∧ getDnaRandom dna d o < 1 := by
  unfold getDnaRandom
  rw [Rat.mkRat_eq_div]
  constructor
  · positivity
  · rw [div_lt_one (by norm_num)]
    have : getDnaRandomNum dna d o < 1000 := Nat.mod_lt _ (by norm_num)
    exact_mod_cast this

/-- The 2D float stream always lies in `[0, 1)`. -/
theorem getDnaFloat_range (dna : List (List Nat)) (c : Nat) :
    0 ≤ getDnaFloat dna c ∧ getDnaFloat dna c < 1 := by
  unfold getDnaFloat
  rw [Rat.mkRat_eq_div]
  constructor
  · positivity
  · rw [div_lt_one (by norm_num)]
    have : getDnaFloatNum dna c < 1000 := Nat.mod_lt _ (by norm_num)
    exact_mod_cast this

/-- The length-decay factor `0.75 + f * 0.1` lies in `[0.75, 0.85)`. -/
theorem decayFactor_bounds (dna : List (List Nat)) (d : Nat) :
    mkRat 75 100 ≤ mkRat 75 100 + getDnaRandom dna d 100 * mkRat 1 10 ∧
      mkRat 75 100 + getDnaRandom dna d 100 * mkRat 1 10 < mkRat 85 100 := by
  obtain ⟨h0, h1⟩ := getDnaRandom_range dna d 100
  have e1 : (mkRat 75 100 : ℚ) = 3 / 4 := by norm_num [Rat.mkRat_eq_div]
  have e2 : (mkRat 1 10 : ℚ) = 1 / 10 := by norm_num [Rat.mkRat_eq_div]
  have e3 : (mkRat 85 100 : ℚ) = 17 / 20 := by norm_num [Rat.mkRat_eq_div]
  rw [e1, e2, e3]
  constructor
  · nlinarith
  · nlinarith

/-! ### Generator structure lemmas -/

/-- A generated (non-pruned) node carries exactly the `length`, `radius`,
`depth`, `position` and `rotation` it was invoked with. -/
theorem genBranch_geom : ∀ (fuel : Nat) (dna : List (List Nat)) (p : Nat) (w : ℚ)
    (maxD : Nat) (pos rot : ℚ × ℚ × ℚ) (len rad : ℚ) (d : Nat) (g : BranchGeom)
    (cs : List BranchNode),
    genBranch dna p w maxD fuel pos rot len rad d = some (.node g cs) →
    g.length = len ∧ g.radius = rad ∧ g.depth = d ∧ g.position = pos ∧ g.rotation = rot := by
  intro fuel dna p w maxD pos rot len rad d g cs h
  match fuel with
  | 0 => simp [genBranch] at h
  | fuel + 1 =>
    simp only [genBranch] at h
    split at h
    · simp at h
    · simp only [Option.some.injEq, BranchNode.node.injEq] at h
      rw [← h.1]
      simp

/-- Every node of a generated tree (rooted at a depth within the bound) has
depth at most `maxDepth`: children are spawned only while `depth < maxDepth`. -/
theorem genBranch_depthLe : ∀ (fuel : Nat) (dna : List (List Nat)) (p : Nat) (w : ℚ)
    (maxD : Nat) (pos rot : ℚ × ℚ × ℚ) (len rad : ℚ) (d : Nat), d ≤ maxD →
    depthLeO maxD fuel (genBranch dna p w maxD fuel pos rot len rad d) = true := by
  intro fuel
  induction fuel with
  | zero => intro dna p w maxD pos rot len rad d _; simp [genBranch, depthLeO]
  | succ fuel ih =>
    intro dna p w maxD pos rot len rad d hd
    simp only [genBranch]
    split
    · simp [depthLeO]
    · simp only [depthLeO, depthLeB, Bool.and_eq_true, decide_eq_true_eq,
        List.all_eq_true]
      refine ⟨hd, ?_⟩
      intro c hc
      split at hc
      · simp at hc
      · next hEnd =>
        simp only [decide_eq_true_eq, not_le] at hEnd
        simp only [List.mem_filterMap] at hc
        obtain ⟨i, _, hgen⟩ := hc
        have := ih dna p w maxD (0, len, 0)
          (getDnaRandom dna (d + 1) (i * 50) * mkRat 6 10, 0,
            (if i = 0 then mkRat 6 10 else -(mkRat 6 10)) +
              (getDnaRandom dna d 200 * mkRat 6 10 - mkRat 3 10) + w * mkRat 2 10)
          (len * (mkRat 75 100 + getDnaRandom dna d 100 * mkRat 1 10))
          (rad * mkRat 7 10) (d + 1) (by omega)
        rw [hgen] at this
        exact this

/-- Strict decay: starting from positive length and radius, every child of
every generated node is strictly shorter and thinner than its parent. -/
theorem genBranch_decay : ∀ (fuel : Nat) (dna : List (List Nat)) (p : Nat) (w : ℚ)
    (maxD : Nat) (pos rot : ℚ × ℚ × ℚ) (len rad : ℚ) (d : Nat),
    0 < len → 0 < rad →
    decayOKO fuel (genBranch dna p w maxD fuel pos rot len rad d) = true := by
  intro fuel
  induction fuel with
  | zero => intro dna p w maxD pos rot len rad d _ _; simp [genBranch, decayOKO]
  | succ fuel ih =>
    intro dna p w maxD pos rot len rad d hlen hrad
    have hfac := decayFactor_bounds dna d
    have hfacpos : 0 < mkRat 75 100 + getDnaRandom dna d 100 * mkRat 1 10 := by
      have : (0 : ℚ) < mkRat 75 100 := by norm_num [Rat.mkRat_eq_div]
      linarith [hfac.1]
    have hfaclt : mkRat 75 100 + getDnaRandom dna d 100 * mkRat 1 10 < 1 := by
      have : (mkRat 85 100 : ℚ) < 1 := by norm_num [Rat.mkRat_eq_div]
      linarith [hfac.2]
    have hlen' : 0 < len * (mkRat 75 100 + getDnaRandom dna d 100 * mkRat 1 10) :=
      mul_pos hlen hfacpos
    have hlenlt : len * (mkRat 75 100 + getDnaRandom dna d 100 * mkRat 1 10) < len := by
      nlinarith
    have hrad' : 0 < rad * mkRat 7 10 := by
      have : (0 : ℚ) < mkRat 7 10 := by norm_num [Rat.mkRat_eq_div]
      exact mul_pos hrad this
    have hradlt : rad * mkRat 7 10 < rad := by
      have : (mkRat 7 10 : ℚ) < 1 := by norm_num [Rat.mkRat_eq_div]
      nlinarith
    simp only [genBranch]
    split
    · simp [decayOKO]
    · simp only [decayOKO, decayOKB, Bool.and_eq_true, List.all_eq_true]
      constructor
      · intro c hc
        split at hc
        · simp at hc
        · simp only [List.mem_filterMap] at hc
          obtain ⟨i, _, hgen⟩ := hc
          match c with
          | .node cg ccs =>
            obtain ⟨hl, hr, _, _, _⟩ := genBranch_geom fuel dna p w maxD _ _ _ _ _ cg ccs hgen
            simp only [Bool.and_eq_true, decide_eq_true_eq]
            rw [hl, hr]
            exact ⟨hlenlt, hradlt⟩
      · intro c hc
        split at hc
        · simp at hc
        · simp only [List.mem_filterMap] at hc
          obtain ⟨i, _, hgen⟩ := hc
          have := ih dna p w maxD (0, len, 0)
            (getDnaRandom dna (d + 1) (i * 50) * mkRat 6 10, 0,
              (if i = 0 then mkRat 6 10 else -(mkRat 6 10)) +
                (getDnaRandom dna d 200 * mkRat 6 10 - mkRat 3 10) + w * mkRat 2 10)
            (len * (mkRat 75 100 + getDnaRandom dna d 100 * mkRat 1 10))
            (rad * mkRat 7 10) (d + 1) hlen' hrad'
          rw [hgen] at this
          exact this

/-- Every call of the 2D `drawBranch` tree (entered at a depth within the
bound) has depth at most `maxDepth`. -/
theorem drawBranchT_depthLe : ∀ (fuel : Nat) (dna : List (List Nat)) (sp : TreeSpecies)
    (maxD : Nat) (len : ℚ) (d cur : Nat) (ang : ℚ), d ≤ maxD →
    cDepthLeB maxD (fuel + 1) (drawBranchT dna sp maxD fuel len d cur ang) = true := by
  intro fuel
  induction fuel with
  | zero =>
    intro dna sp maxD len d cur ang hd
    simp [drawBranchT, cDepthLeB, hd]
  | succ fuel ih =>
    intro dna sp maxD len d cur ang hd
    simp only [drawBranchT, cDepthLeB, Bool.and_eq_true, decide_eq_true_eq,
      List.all_eq_true]
    refine ⟨hd, ?_⟩
    intro c hc
    split at hc
    · next hlt =>
      simp only [List.mem_map] at hc
      obtain ⟨i, _, hgen⟩ := hc
      rw [← hgen]
      exact ih dna sp maxD _ (d + 1) _ _ (by omega)
    · simp at hc

/-! ### Wiring shear lemmas -/

/-- Changing the wiring state from `wa` to `wb` shifts the z-rotation argument
of a `Branch` by `(wb - wa) * 0.2` and changes nothing else: the generated
tree is the old tree with every node's z-rotation shifted by that amount. -/
theorem genBranch_shear : ∀ (fuel : Nat) (dna : List (List Nat)) (p : Nat)
    (maxD : Nat) (wa wb : ℚ) (pos : ℚ × ℚ × ℚ) (rx ry rz : ℚ) (len rad : ℚ) (d : Nat),
    genBranch dna p wb maxD fuel pos (rx, ry, rz + (wb - wa) * mkRat 2 10) len rad d
      = Option.map (addRotZ ((wb - wa) * mkRat 2 10) fuel)
          (genBranch dna p wa maxD fuel pos (rx, ry, rz) len rad d) := by
  intro fuel
  induction fuel with
  | zero => intro dna p maxD wa wb pos rx ry rz len rad d; simp [genBranch]
  | succ fuel ih =>
    intro dna p maxD wa wb pos rx ry rz len rad d
    by_cases hP : d > 1 ∧ getDnaRandom dna d (300 + p) > mkRat 85 100
    · simp only [genBranch, if_pos hP, Option.map_none']
    · simp only [genBranch, if_neg hP, Option.map_some', addRotZ]
      have hfun : (fun i => genBranch dna p wb maxD fuel (0, len, 0)
            (getDnaRandom dna (d + 1) (i * 50) * mkRat 6 10, 0,
              (if i = 0 then mkRat 6 10 else -(mkRat 6 10)) +
                (getDnaRandom dna d 200 * mkRat 6 10 - mkRat 3 10) + wb * mkRat 2 10)
            (len * (mkRat 75 100 + getDnaRandom dna d 100 * mkRat 1 10))
            (rad * mkRat 7 10) (d + 1))
          = (fun i => Option.map (addRotZ ((wb - wa) * mkRat 2 10) fuel)
              (genBranch dna p wa maxD fuel (0, len, 0)
                (getDnaRandom dna (d + 1) (i * 50) * mkRat 6 10, 0,
                  (if i = 0 then mkRat 6 10 else -(mkRat 6 10)) +
                    (getDnaRandom dna d 200 * mkRat 6 10 - mkRat 3 10) + wa * mkRat 2 10)
                (len * (mkRat 75 100 + getDnaRandom dna d 100 * mkRat 1 10))
                (rad * mkRat 7 10) (d + 1))) := by
        funext i
        have harg : (if i = 0 then mkRat 6 10 else -(mkRat 6 10)) +
              (getDnaRandom dna d 200 * mkRat 6 10 - mkRat 3 10) + wb * mkRat 2 10
            = ((if i = 0 then mkRat 6 10 else -(mkRat 6 10)) +
                (getDnaRandom dna d 200 * mkRat 6 10 - mkRat 3 10) + wa * mkRat 2 10) +
              (wb - wa) * mkRat 2 10 := by ring
        rw [harg]
        exact ih dna p maxD wa wb (0, len, 0) _ 0 _ _ _ (d + 1)
      refine congrArg some (congrArg (BranchNode.node _) ?_)
      by_cases hE : decide (maxD ≤ d) = true
      · simp only [if_pos hE, List.map_nil]
      · simp only [if_neg hE]
        rw [hfun, ← List.map_filterMap]

/-- One level up: with the root's rotation fixed, changing the wiring state
shifts every child subtree's z-rotations uniformly. -/
theorem genBranch_shear_root : ∀ (fuel : Nat) (dna : List (List Nat)) (p : Nat)
    (maxD : Nat) (wa wb : ℚ) (pos rot : ℚ × ℚ × ℚ) (len rad : ℚ),
    genBranch dna p wb maxD (fuel + 1) pos rot len rad 0
      = Option.map (fun n => match n with
          | .node g cs => .node g (cs.map (addRotZ ((wb - wa) * mkRat 2 10) fuel)))
          (genBranch dna p wa maxD (fuel + 1) pos rot len rad 0) := by
  intro fuel dna p maxD wa wb pos rot len rad
  have hP : ¬(0 > 1 ∧ getDnaRandom dna 0 (300 + p) > mkRat 85 100) := by
    intro h
    omega
  simp only [genBranch, if_neg hP, Option.map_some']
  have hfun : (fun i => genBranch dna p wb maxD fuel (0, len, 0)
        (getDnaRandom dna 1 (i * 50) * mkRat 6 10, 0,
          (if i = 0 then mkRat 6 10 else -(mkRat 6 10)) +
            (getDnaRandom dna 0 200 * mkRat 6 10 - mkRat 3 10) + wb * mkRat 2 10)
        (len * (mkRat 75 100 + getDnaRandom dna 0 100 * mkRat 1 10))
        (rad * mkRat 7 10) 1)
      = (fun i => Option.map (addRotZ ((wb - wa) * mkRat 2 10) fuel)
          (genBranch dna p wa maxD fuel (0, len, 0)
            (getDnaRandom dna 1 (i * 50) * mkRat 6 10, 0,
              (if i = 0 then mkRat 6 10 else -(mkRat 6 10)) +
                (getDnaRandom dna 0 200 * mkRat 6 10 - mkRat 3 10) + wa * mkRat 2 10)
            (len * (mkRat 75 100 + getDnaRandom dna 0 100 * mkRat 1 10))
            (rad * mkRat 7 10) 1)) := by
    funext i
    have harg : (if i = 0 then mkRat 6 10 else -(mkRat 6 10)) +
          (getDnaRandom dna 0 200 * mkRat 6 10 - mkRat 3 10) + wb * mkRat 2 10
        = ((if i = 0 then mkRat 6 10 else -(mkRat 6 10)) +
            (getDnaRandom dna 0 200 * mkRat 6 10 - mkRat 3 10) + wa * mkRat 2 10) +
          (wb - wa) * mkRat 2 10 := by ring
    rw [harg]
    exact genBranch_shear fuel dna p maxD wa wb (0, len, 0) _ 0 _ _ _ 1
  refine congrArg some (congrArg (BranchNode.node _) ?_)
  by_cases hE : decide (maxD ≤ 0) = true
  · simp only [if_pos hE, List.map_nil]
  · simp only [if_neg hE]
    rw [hfun, ← List.map_filterMap]

/-! ### Segment selection lemmas -/

/-- With an empty history the 3D accessor falls back to the literal token
`'DEFAULT'` (index `min(floor(depth/2), -1) = -1` misses, and so does `dna[0]`). -/
theorem segmentFor3_nil (d : Nat) : segmentFor3 [] d = jsStr "DEFAULT" := by
  unfold segmentFor3 truthyGet
  have hmin : min (((d / 2 : Nat) : ℤ)) ((([] : List (List Nat)).length : ℤ) - 1) = -1 := by
    simp only [List.length_nil, Nat.cast_zero, zero_sub]
    omega
  rw [hmin]
  simp

/-- With an empty history the 2D accessor falls back to the literal token
`'SEED'`. -/
theorem segmentFor2_nil (c : Nat) : segmentFor2 [] c = jsStr "SEED" := by
  unfold segmentFor2 segIdx2
  simp

/-- For a one-segment history the 3D accessor always selects that segment
(the clamp `min(floor(depth/2), 0)` is 0 at every depth). -/
theorem segmentFor3_single (s : List Nat) (d : Nat) (hs : s ≠ []) :
    segmentFor3 [s] d = s := by
  unfold segmentFor3 truthyGet
  have hmin : min (((d / 2 : Nat) : ℤ)) ((([s] : List (List Nat)).length : ℤ) - 1) = 0 := by
    simp only [List.length_singleton, Nat.cast_one, sub_self]
    omega
  rw [hmin]
  simp [hs]

/-- For a two-segment history the 3D accessor selects the first segment at
depths 0 and 1. -/
theorem segmentFor3_pair_shallow (s t : List Nat) (d : Nat) (hs : s ≠ []) (hd : d ≤ 1) :
    segmentFor3 [s, t] d = s := by
  unfold segmentFor3 truthyGet
  have hd2 : d / 2 = 0 := by omega
  have hmin : min (((d / 2 : Nat) : ℤ)) ((([s, t] : List (List Nat)).length : ℤ) - 1) = 0 := by
    rw [hd2]
    simp
  rw [hmin]
  simp [hs]

/-- For a two-segment history the 3D accessor selects the second segment at
every depth from 2 on (the clamp keeps the index at 1 forever). -/
theorem segmentFor3_pair_deep (s t : List Nat) (d : Nat) (ht : t ≠ []) (hd : 2 ≤ d) :
    segmentFor3 [s, t] d = t := by
  unfold segmentFor3 truthyGet
  have hd2 : 1 ≤ d / 2 := by omega
  have hmin : min (((d / 2 : Nat) : ℤ)) ((([s, t] : List (List Nat)).length : ℤ) - 1) = 1 := by
    have hlen : (([s, t] : List (List Nat)).length : ℤ) = 2 := by norm_num
    rw [hlen]
    omega
  rw [hmin]
  simp [ht]

/-- The 3D float stream depends on the history only through the selected
segment. -/
theorem getDnaRandom_congr_seg (dna dna' : List (List Nat)) (d o : Nat)
    (h : segmentFor3 dna d = segmentFor3 dna' d) :
    getDnaRandom dna d o = getDnaRandom dna' d o := by
  unfold getDnaRandom getDnaRandomNum dnaKey3
  rw [h]

/-! ### Claims -/

/-- C1: Determinism.  The structural generators read nothing but
`(species, stage, dnaHistory, pruningCount, wiringState)`: two records that
agree on this tuple generate identical 3D trees and identical 2D call trees
(same node count, transforms and leaf placements), and the hash stream is a
pure function of its input string. -/
theorem c1_determinism :
    (∀ r1 r2 : TreeRec, r1.species = r2.species → r1.stage = r2.stage →
      r1.dna = r2.dna → r1.pruningCount = r2.pruningCount →
      r1.wiringState = r2.wiringState →
      genTreeVisual r1 = genTreeVisual r2 ∧ genCanvas r1 = genCanvas r2) ∧
    (∀ s1 s2 : List Nat, s1 = s2 → cyrb53 s1 = cyrb53 s2) := by
  constructor
  · intro r1 r2 hsp hst hdna hp hw
    obtain ⟨sp1, st1, a1, w1, f1, h1, sv1, p1, ws1, d1, n1⟩ := r1
    obtain ⟨sp2, st2, a2, w2, f2, h2, sv2, p2, ws2, d2, n2⟩ := r2
    simp only at hsp hst hdna hp hw
    subst hsp
    subst hst
    subst hdna
    subst hp
    subst hw
    exact ⟨rfl, rfl⟩
  · intro s1 s2 h
    rw [h]

/-- C1 witness: two records sharing the five-tuple but differing in age,
vitals, seed value and name render identically. -/
theorem c1_determinism_witness :
    genTreeVisual ⟨.PINE, .ADULT, 0, 50, 50, 100, 0, 3, 1, [jsStr "X"], []⟩
        = genTreeVisual ⟨.PINE, .ADULT, 7, 10, 20, 90, mkRat 1 3, 3, 1, [jsStr "X"],
            jsStr "Bonsai"⟩ ∧
      genCanvas ⟨.PINE, .ADULT, 0, 50, 50, 100, 0, 3, 1, [jsStr "X"], []⟩
        = genCanvas ⟨.PINE, .ADULT, 7, 10, 20, 90, mkRat 1 3, 3, 1, [jsStr "X"],
            jsStr "Bonsai"⟩ :=
  c1_determinism.1 _ _ rfl rfl rfl rfl rfl

/-- C9: Empty-history totality.  With an empty `dnaHistory` the 3D accessor
falls back to the token `'DEFAULT'` and the 2D accessor to `'SEED'`, and both
float streams always return a value in `[0, 1)` — generation never fails. -/
theorem c9_empty_history :
    (∀ d : Nat, segmentFor3 [] d = jsStr "DEFAULT") ∧
    (∀ c : Nat, segmentFor2 [] c = jsStr "SEED") ∧
    (∀ (dna : List (List Nat)) (d o : Nat),
      0 ≤ getDnaRandom dna d o ∧ getDnaRandom dna d o < 1) ∧
    (∀ (dna : List (List Nat)) (c : Nat),
      0 ≤ getDnaFloat dna c ∧ getDnaFloat dna c < 1) :=
  ⟨segmentFor3_nil, segmentFor2_nil, getDnaRandom_range, getDnaFloat_range⟩

/-- C5: Decay monotonicity.  Every child of every generated node is strictly
shorter and strictly thinner than its parent, for any positive starting
length and radius (and in particular for every record's actual tree, started
at length 1.5 and radius 0.3); the length factor `0.75 + 0.1 * floatAt`
always lies in `[0.75, 0.85)`. -/
theorem c5_decay :
    (∀ (dna : List (List Nat)) (p : Nat) (w : ℚ) (maxD fuel : Nat)
      (pos rot : ℚ × ℚ × ℚ) (len rad : ℚ) (d : Nat), 0 < len → 0 < rad →
      decayOKO fuel (genBranch dna p w maxD fuel pos rot len rad d) = true) ∧
    (∀ r : TreeRec, tvDecayOK r = true) ∧
    (∀ (dna : List (List Nat)) (d : Nat),
      mkRat 75 100 ≤ mkRat 75 100 + getDnaRandom dna d 100 * mkRat 1 10 ∧
        mkRat 75 100 + getDnaRandom dna d 100 * mkRat 1 10 < mkRat 85 100) := by
  refine ⟨?_, ?_, decayFactor_bounds⟩
  · intro dna p w maxD fuel pos rot len rad d hl hr
    exact genBranch_decay fuel dna p w maxD pos rot len rad d hl hr
  · intro r
    unfold tvDecayOK genTreeVisual
    by_cases hst : r.stage = .SEED
    · simp [hst]
    · simp only [hst, if_false]
      exact genBranch_decay (complexity3D r.stage + 1) r.dna r.pruningCount
        (r.wiringState : ℚ) (complexity3D r.stage) (0, 0, 0) (0, 0, 0)
        (mkRat 3 2) (mkRat 3 10) 0
        (by norm_num [Rat.mkRat_eq_div]) (by norm_num [Rat.mkRat_eq_div])

/-- C5 witness: the strict-decay invariant instantiated on the SAPLING trunk
configuration (length 1.5 > 0, radius 0.3 > 0). -/
theorem c5_decay_witness :
    decayOKO 4 (genBranch [jsStr "X"] 0 0 3 4 (0, 0, 0) (0, 0, 0)
      (mkRat 3 2) (mkRat 3 10) 0) = true :=
  c5_decay.1 [jsStr "X"] 0 0 3 4 (0, 0, 0) (0, 0, 0) (mkRat 3 2) (mkRat 3 10) 0
    (by decide) (by decide)

/-- C2: Depth bound and SEED special case.  No generated branch node exceeds
depth `complexity(stage)` in either rendering path; the complexity tables
are SEED/SAPLING/ADULT/MASTER = 0/3/5/7 (3D) and 0/4/7/9 (2D); and a SEED
record produces zero branch nodes — only the dedicated seed visual. -/
theorem c2_depth_bound :
    (∀ r : TreeRec, tvDepthOK r = true) ∧
    (∀ r : TreeRec, cvDepthOK r = true) ∧
    (∀ r : TreeRec, r.stage = .SEED →
      countTV (genTreeVisual r) = 0 ∧ isSeedVis (genTreeVisual r) = true ∧
        genCanvas r = .seed2D) ∧
    (complexity3D .SEED = 0 ∧ complexity3D .SAPLING = 3 ∧
      complexity3D .ADULT = 5 ∧ complexity3D .MASTER = 7) ∧
    (complexity2D .SEED = 0 ∧ complexity2D .SAPLING = 4 ∧
      complexity2D .ADULT = 7 ∧ complexity2D .MASTER = 9) := by
  refine ⟨?_, ?_, ?_, ⟨rfl, rfl, rfl, rfl⟩, ⟨rfl, rfl, rfl, rfl⟩⟩
  · intro r
    unfold tvDepthOK genTreeVisual
    by_cases hst : r.stage = .SEED
    · simp [hst]
    · simp only [hst, if_false]
      exact genBranch_depthLe (complexity3D r.stage + 1) r.dna r.pruningCount
        (r.wiringState : ℚ) (complexity3D r.stage) (0, 0, 0) (0, 0, 0)
        (mkRat 3 2) (mkRat 3 10) 0 (Nat.zero_le _)
  · intro r
    unfold cvDepthOK genCanvas
    by_cases hst : r.stage = .SEED
    · simp [hst]
    · simp only [hst, if_false]
      have h1 : 1 ≤ complexity2D r.stage := by
        cases hs : r.stage <;> simp_all [complexity2D]
      exact drawBranchT_depthLe (complexity2D r.stage + 1) r.dna r.species
        (complexity2D r.stage) 140 1 0 0 h1
  · intro r hst
    unfold genTreeVisual genCanvas
    simp [hst, countTV, isSeedVis]

/-- C2 witness: a concrete SEED record yields zero branch nodes and the seed
visuals in both paths. -/
theorem c2_depth_bound_witness :
    countTV (genTreeVisual (mkRec [jsStr "PIN-AB12"] 0 0 .SEED)) = 0 ∧
      isSeedVis (genTreeVisual (mkRec [jsStr "PIN-AB12"] 0 0 .SEED)) = true ∧
      genCanvas (mkRec [jsStr "PIN-AB12"] 0 0 .SEED) = .seed2D :=
  c2_depth_bound.2.2.1 _ rfl

set_option maxRecDepth 4000 in
/-- The depth-≤-1 truncation of a tree rooted at depth 0 in explicit form:
no pruning draw appears (the test is read only at depths > 1, and those
subtrees are cut off), so the truncation is independent of the pruning
count.  The symbolic fuel keeps the unfolding to exactly two levels. -/
theorem genBranch_trunc_form (fuel : Nat) (dna : List (List Nat)) (pr : Nat) (w : ℚ)
    (k : Nat) (pos rot : ℚ × ℚ × ℚ) (len rad : ℚ) :
    Option.map (trunc1B 2) (genBranch dna pr w (k + 1) (fuel + 2) pos rot len rad 0)
      = some (.node ⟨pos, rot, len, rad, rad * mkRat 7 10, 0, false, none⟩
          ((List.range 2).map (fun i =>
            .node ⟨(0, len, 0),
              (getDnaRandom dna 1 (i * 50) * mkRat 6 10, 0,
                (if i = 0 then mkRat 6 10 else -(mkRat 6 10)) +
                  (getDnaRandom dna 0 200 * mkRat 6 10 - mkRat 3 10) + w * mkRat 2 10),
              len * (mkRat 75 100 + getDnaRandom dna 0 100 * mkRat 1 10),
              rad * mkRat 7 10,
              rad * mkRat 7 10 * mkRat 7 10, 1, decide (k + 1 ≤ 1),
              if (decide (k + 1 ≤ 1) : Bool) = true
                then some ((getDnaRandom dna (k + 1) 999 - mkRat 1 2) * mkRat 1 10)
                else none⟩ []))) := rfl

set_option maxRecDepth 4000 in
/-- As `genBranch_trunc_form`, for the degenerate bound `maxDepth = 0`: the
root is terminal, so the truncation is a single explicit node. -/
theorem genBranch_trunc_form0 (fuel : Nat) (dna : List (List Nat)) (pr : Nat) (w : ℚ)
    (pos rot : ℚ × ℚ × ℚ) (len rad : ℚ) :
    Option.map (trunc1B 2) (genBranch dna pr w 0 (fuel + 2) pos rot len rad 0)
      = some (.node ⟨pos, rot, len, rad, rad * mkRat 7 10, 0, true,
          some ((getDnaRandom dna 0 999 - mkRat 1 2) * mkRat 1 10)⟩ []) := rfl

set_option maxRecDepth 4000 in
/-- Replacing the pruning count changes nothing in the depth-≤-1 truncation
of a tree rooted at depth 0. -/
theorem genBranch_trunc_prune (fuel : Nat) (dna : List (List Nat)) (w : ℚ)
    (maxD : Nat) (n m : Nat) (pos rot : ℚ × ℚ × ℚ) (len rad : ℚ) :
    Option.map (trunc1B 2) (genBranch dna n w maxD (fuel + 2) pos rot len rad 0)
      = Option.map (trunc1B 2) (genBranch dna m w maxD (fuel + 2) pos rot len rad 0) := by
  cases maxD with
  | zero =>
    rw [genBranch_trunc_form0 fuel dna n w pos rot len rad,
      genBranch_trunc_form0 fuel dna m w pos rot len rad]
  | succ k =>
    rw [genBranch_trunc_form fuel dna n w k pos rot len rad,
      genBranch_trunc_form fuel dna m w k pos rot len rad]

set_option maxRecDepth 4000 in
unseal Rat.mul Rat.add Rat.sub in
/-- Concrete pruning re-roll: for `dna = ["X"]` at ADULT, pruning counts 1
and 2 generate trees with different node counts (63 versus 7). -/
theorem countTV_prune_change :
    countTV (genTreeVisual (mkRec [jsStr "X"] 1 0 .ADULT)) ≠
      countTV (genTreeVisual (mkRec [jsStr "X"] 2 0 .ADULT)) := by
  decide

set_option maxRecDepth 4000 in
/-- C4: Pruning locality and re-roll.  The pruning survival test applies only
at depth > 1, so replacing `pruningCount = N` by `N + 1` (for any record and
any `N`) leaves the trunk and its direct children — existence, positions,
rotations, lengths, radii — unchanged, while deeper subtrees may change
(witnessed concretely: counts 63 versus 7 for `dna = ["X"]` at ADULT between
pruning counts 1 and 2). -/
theorem c4_pruning_frame :
    (∀ (r : TreeRec) (n : Nat),
      tvTrunc (genTreeVisual (setPrune r n))
        = tvTrunc (genTreeVisual (setPrune r (n + 1)))) ∧
    countTV (genTreeVisual (mkRec [jsStr "X"] 1 0 .ADULT)) ≠
      countTV (genTreeVisual (mkRec [jsStr "X"] 2 0 .ADULT)) := by
  constructor
  · intro r n
    obtain ⟨sp, st, a, w, f, h, sv, p, ws, dna, nm⟩ := r
    cases st with
    | SEED =>
      have hseed : ∀ q : Nat,
          genTreeVisual (setPrune ⟨sp, .SEED, a, w, f, h, sv, p, ws, dna, nm⟩ q)
            = TreeVisual.seedVisual
                (mkRat 15 100 + getDnaRandom dna 0 1 * mkRat 5 100)
                (mkRat 3 10 + getDnaRandom dna 0 1 * mkRat 1 10) := fun _ => rfl
      rw [hseed n, hseed (n + 1)]
    | SAPLING =>
      exact congrArg TreeVisual.branches
        (genBranch_trunc_prune 2 dna (ws : ℚ) 3 n (n + 1) (0, 0, 0) (0, 0, 0)
          (mkRat 3 2) (mkRat 3 10))
    | ADULT =>
      exact congrArg TreeVisual.branches
        (genBranch_trunc_prune 4 dna (ws : ℚ) 5 n (n + 1) (0, 0, 0) (0, 0, 0)
          (mkRat 3 2) (mkRat 3 10))
    | MASTER =>
      exact congrArg TreeVisual.branches
        (genBranch_trunc_prune 6 dna (ws : ℚ) 7 n (n + 1) (0, 0, 0) (0, 0, 0)
          (mkRat 3 2) (mkRat 3 10))
  · exact countTV_prune_change

/-- C7: Wiring is a uniform pure-angle shear.  For every record, changing the
wiring state from `w1` to `w2` produces exactly the old tree with
`(w2 - w1) * 0.2` added to the z-rotation of every branch below the root
mount: the wiring contribution to each child angle is `wiringState * 0.2`,
identical at every depth, and node count, pruning outcomes, lengths, radii,
leaf placement and the seed visual are unchanged (the wiring state never
enters a hash input). -/
theorem c7_wiring_shear : ∀ (r : TreeRec) (w1 w2 : Nat),
    genTreeVisual (setWire r w2)
      = shearTV (((w2 : ℚ) - (w1 : ℚ)) * mkRat 2 10) (complexity3D r.stage)
          (genTreeVisual (setWire r w1)) := by
  intro r w1 w2
  obtain ⟨sp, st, a, w, f, h, sv, p, ws, dna, nm⟩ := r
  cases st with
  | SEED => rfl
  | SAPLING =>
    exact congrArg TreeVisual.branches
      (genBranch_shear_root 3 dna p 3 (w1 : ℚ) (w2 : ℚ) (0, 0, 0) (0, 0, 0)
        (mkRat 3 2) (mkRat 3 10))
  | ADULT =>
    exact congrArg TreeVisual.branches
      (genBranch_shear_root 5 dna p 5 (w1 : ℚ) (w2 : ℚ) (0, 0, 0) (0, 0, 0)
        (mkRat 3 2) (mkRat 3 10))
  | MASTER =>
    exact congrArg TreeVisual.branches
      (genBranch_shear_root 7 dna p 7 (w1 : ℚ) (w2 : ℚ) (0, 0, 0) (0, 0, 0)
        (mkRat 3 2) (mkRat 3 10))

/-- C3 counterexample: the 3D accessor does not implement
`dnaHistory[floor(depth / 2) mod len]`.  At `dnaHistory = ["X", "Y"]` and
depth 4 the spec formula selects index `2 mod 2 = 0`, i.e. `"X"`, but the
source clamps with `min(floor(depth / 2), len - 1)` and returns `"Y"`. -/
theorem c3_counterexample :
    segmentFor3 [jsStr "X", jsStr "Y"] 4 = jsStr "Y" ∧
      segmentForSpecMod [jsStr "X", jsStr "Y"] 4 = jsStr "X" ∧
      jsStr "X" ≠ jsStr "Y" := by
  refine ⟨by decide, by decide, by decide⟩

set_option maxRecDepth 4000 in
unseal Rat.mul Rat.add Rat.sub in
/-- Concrete C3 example: the depth-≤-1 truncations of the ADULT trees for
`["X"]` and `["X", "Y"]` coincide. -/
theorem trunc_X_XY_eq :
    tvTrunc (genTreeVisual (mkRec [jsStr "X"] 0 0 .ADULT))
      = tvTrunc (genTreeVisual (mkRec [jsStr "X", jsStr "Y"] 0 0 .ADULT)) := by
  have h1 : tvTrunc (genTreeVisual (mkRec [jsStr "X"] 0 0 .ADULT))
      = TreeVisual.branches (some (.node
          ⟨(0, 0, 0), (0, 0, 0), mkRat 3 2, mkRat 3 10, mkRat 21 100, 0, false, none⟩
          [.node ⟨(0, mkRat 3 2, 0), (mkRat 1173 5000, 0, mkRat 831 1000),
              mkRat 25359 20000, mkRat 21 100, mkRat 147 1000, 1, false, none⟩ [],
           .node ⟨(0, mkRat 3 2, 0), (mkRat 1329 2500, 0, mkRat (-369) 1000),
              mkRat 25359 20000, mkRat 21 100, mkRat 147 1000, 1, false, none⟩ []])) := by
    rfl
  have h2 : tvTrunc (genTreeVisual (mkRec [jsStr "X", jsStr "Y"] 0 0 .ADULT))
      = TreeVisual.branches (some (.node
          ⟨(0, 0, 0), (0, 0, 0), mkRat 3 2, mkRat 3 10, mkRat 21 100, 0, false, none⟩
          [.node ⟨(0, mkRat 3 2, 0), (mkRat 1173 5000, 0, mkRat 831 1000),
              mkRat 25359 20000, mkRat 21 100, mkRat 147 1000, 1, false, none⟩ [],
           .node ⟨(0, mkRat 3 2, 0), (mkRat 1329 2500, 0, mkRat (-369) 1000),
              mkRat 25359 20000, mkRat 21 100, mkRat 147 1000, 1, false, none⟩ []])) := by
    rfl
  rw [h1, h2]

set_option maxRecDepth 4000 in
unseal Rat.mul Rat.add Rat.sub in
/-- Concrete C3 example: from depth 2 on, the ADULT trees for `["X"]` and
`["X", "Y"]` differ at every depth (here: in the node rotations). -/
theorem rots_X_XY_differ :
    rotsTV 2 (genTreeVisual (mkRec [jsStr "X"] 0 0 .ADULT)) ≠
        rotsTV 2 (genTreeVisual (mkRec [jsStr "X", jsStr "Y"] 0 0 .ADULT)) ∧
      rotsTV 3 (genTreeVisual (mkRec [jsStr "X"] 0 0 .ADULT)) ≠
        rotsTV 3 (genTreeVisual (mkRec [jsStr "X", jsStr "Y"] 0 0 .ADULT)) ∧
      rotsTV 4 (genTreeVisual (mkRec [jsStr "X"] 0 0 .ADULT)) ≠
        rotsTV 4 (genTreeVisual (mkRec [jsStr "X", jsStr "Y"] 0 0 .ADULT)) ∧
      rotsTV 5 (genTreeVisual (mkRec [jsStr "X"] 0 0 .ADULT)) ≠
        rotsTV 5 (genTreeVisual (mkRec [jsStr "X", jsStr "Y"] 0 0 .ADULT)) := by
  refine ⟨by decide, by decide, by decide, by decide⟩

/-- C3 amended: the 3D accessor returns
`dnaHistory[min(floor(depth / 2), len - 1)]` — a clamp, not a modulus.
Consequently two generator calls differing only in `dnaHistory = ["X"]`
versus `["X", "Y"]` draw identical floats at depths 0 and 1 (both resolve to
the first segment), and from depth 2 on the accessor selects `"Y"` for the
two-segment history at every depth; concretely, the ADULT trees agree up to
depth 1 and differ at each of the depths 2 through 5. -/
theorem c3_stride_clamp :
    (∀ (d o : Nat), d ≤ 1 →
      getDnaRandom [jsStr "X"] d o = getDnaRandom [jsStr "X", jsStr "Y"] d o) ∧
    (∀ d : Nat, 2 ≤ d → segmentFor3 [jsStr "X"] d = jsStr "X" ∧
      segmentFor3 [jsStr "X", jsStr "Y"] d = jsStr "Y") ∧
    tvTrunc (genTreeVisual (mkRec [jsStr "X"] 0 0 .ADULT))
      = tvTrunc (genTreeVisual (mkRec [jsStr "X", jsStr "Y"] 0 0 .ADULT)) ∧
    (rotsTV 2 (genTreeVisual (mkRec [jsStr "X"] 0 0 .ADULT)) ≠
      rotsTV 2 (genTreeVisual (mkRec [jsStr "X", jsStr "Y"] 0 0 .ADULT))) ∧
    (rotsTV 3 (genTreeVisual (mkRec [jsStr "X"] 0 0 .ADULT)) ≠
      rotsTV 3 (genTreeVisual (mkRec [jsStr "X", jsStr "Y"] 0 0 .ADULT))) ∧
    (rotsTV 4 (genTreeVisual (mkRec [jsStr "X"] 0 0 .ADULT)) ≠
      rotsTV 4 (genTreeVisual (mkRec [jsStr "X", jsStr "Y"] 0 0 .ADULT))) ∧
    (rotsTV 5 (genTreeVisual (mkRec [jsStr "X"] 0 0 .ADULT)) ≠
      rotsTV 5 (genTreeVisual (mkRec [jsStr "X", jsStr "Y"] 0 0 .ADULT))) := by
  refine ⟨?_, ?_, trunc_X_XY_eq, rots_X_XY_differ.1, rots_X_XY_differ.2.1,
    rots_X_XY_differ.2.2.1, rots_X_XY_differ.2.2.2⟩
  · intro d o hd
    apply getDnaRandom_congr_seg
    rw [segmentFor3_single (jsStr "X") d (by decide),
      segmentFor3_pair_shallow (jsStr "X") (jsStr "Y") d (by decide) hd]
  · intro d hd
    exact ⟨segmentFor3_single (jsStr "X") d (by decide),
      segmentFor3_pair_deep (jsStr "X") (jsStr "Y") d (by decide) hd⟩

/-- C3 witness: the amended accessor behavior at depths 1 and 2. -/
theorem c3_stride_clamp_witness :
    getDnaRandom [jsStr "X"] 1 100 = getDnaRandom [jsStr "X", jsStr "Y"] 1 100 ∧
      segmentFor3 [jsStr "X"] 2 = jsStr "X" ∧
      segmentFor3 [jsStr "X", jsStr "Y"] 2 = jsStr "Y" :=
  ⟨c3_stride_clamp.1 1 100 (by decide), (c3_stride_clamp.2.1 2 (by decide)).1,
    (c3_stride_clamp.2.1 2 (by decide)).2⟩

set_option maxRecDepth 4000 in
unseal Rat.mul Rat.add Rat.sub in
/-- C6 counterexample: sibling draws are not decorrelated in the 3D path.
For `dna = ["X"]` at ADULT, the root's two children have exactly equal
lengths — both are set from the single length-decay float drawn once at the
parent — so the float streams driving the siblings' length decisions
coincide rather than differ. -/
theorem c6_counterexample :
    rootChildLens (genTreeVisual (mkRec [jsStr "X"] 0 0 .ADULT))
      = [mkRat 25359 20000, mkRat 25359 20000] := by
  decide

/-- C6 amended: the branch index enters the hash key only for the per-child
x-rotation draw of the 3D path (offset `i * 50` at `depth + 1`), whose keys
are distinct across the two siblings; in the 2D path the per-child variance
(`cursor + 10 + i`) and decay (`cursor + 20 + i`) draws use distinct hash
inputs for distinct branch indices.  The per-node angle and length floats of
the 3D path are drawn once per parent and shared by both children (see the
counterexample), so sibling length and angle-variance values coincide. -/
theorem c6_sibling_keys :
    (∀ (dna : List (List Nat)) (d : Nat),
      dnaKey3 dna (d + 1) 0 ≠ dnaKey3 dna (d + 1) 50) ∧
    (∀ (dna : List (List Nat)) (c i j : Nat), i ≠ j →
      dnaKey2 dna (c + 10 + i) ≠ dnaKey2 dna (c + 10 + j) ∧
        dnaKey2 dna (c + 20 + i) ≠ dnaKey2 dna (c + 20 + j)) := by
  constructor
  · intro dna d h
    have := dnaKey3_inj_offset dna (d + 1) 0 50 h
    omega
  · intro dna c i j hij
    constructor
    · intro h
      have := dnaKey2_inj_cursor dna (c + 10 + i) (c + 10 + j) h
      omega
    · intro h
      have := dnaKey2_inj_cursor dna (c + 20 + i) (c + 20 + j) h
      omega

/-- C6 witness: distinct sibling keys at the root of an empty history. -/
theorem c6_sibling_keys_witness :
    dnaKey3 [] 1 0 ≠ dnaKey3 [] 1 50 ∧
      dnaKey2 [] 10 ≠ dnaKey2 [] 11 ∧ dnaKey2 [] 20 ≠ dnaKey2 [] 21 :=
  ⟨c6_sibling_keys.1 [] 0, (c6_sibling_keys.2 [] 0 0 1 (by decide)).1,
    (c6_sibling_keys.2 [] 0 0 1 (by decide)).2⟩

set_option maxRecDepth 4000 in
unseal Rat.mul Rat.add Rat.sub in
/-- C8 counterexample: offsets can alias.  With `pruningCount = 699` the
pruning offset is `300 + 699 = 999`, the leaf-color offset; at depth 5 (the
ADULT `maxDepth`, reached by the generated tree of `dna = ["X"]`, which does
contain a depth-5 node) the two decisions read the identical hash key. -/
theorem c8_counterexample :
    dnaKey3 [jsStr "X"] 5 (300 + 699) = dnaKey3 [jsStr "X"] 5 999 ∧
      tvHasDepth 5 (genTreeVisual (mkRec [jsStr "X"] 699 0 .ADULT)) = true := by
  refine ⟨by decide, by decide⟩

/-- C8 amended: distinct same-depth decisions at a node read distinct hash
inputs provided `300 + pruningCount ≠ 999` (i.e. `pruningCount ≠ 699`), and
the two child-rotation draws always read distinct inputs; decisions made at
different depths can alias for adversarial histories, and `pruningCount =
699` aliases the pruning draw with the leaf-color draw at `maxDepth`. -/
theorem c8_offset_separation : ∀ (dna : List (List Nat)) (d p : Nat), p ≠ 699 →
    (dnaKey3 dna d 100 ≠ dnaKey3 dna d 200 ∧
      dnaKey3 dna d 100 ≠ dnaKey3 dna d (300 + p) ∧
      dnaKey3 dna d 200 ≠ dnaKey3 dna d (300 + p) ∧
      dnaKey3 dna d 100 ≠ dnaKey3 dna d 999 ∧
      dnaKey3 dna d 200 ≠ dnaKey3 dna d 999 ∧
      dnaKey3 dna d (300 + p) ≠ dnaKey3 dna d 999) ∧
    dnaKey3 dna (d + 1) 0 ≠ dnaKey3 dna (d + 1) 50 := by
  intro dna d p hp
  refine ⟨⟨?_, ?_, ?_, ?_, ?_, ?_⟩, ?_⟩ <;>
    · intro h
      have := dnaKey3_inj_offset dna _ _ _ h
      omega

/-- C8 witness: the offset-separation facts at depth 0 with pruning count 0. -/
theorem c8_offset_separation_witness :
    dnaKey3 [jsStr "X"] 0 (300 + 0) ≠ dnaKey3 [jsStr "X"] 0 999 :=
  (c8_offset_separation [jsStr "X"] 0 0 (by decide)).1.2.2.2.2.2

/-- Hex rendering of an integer in `[0, 100]`: exactly two uppercase
hexadecimal digits after zero-padding, decoding back to the integer. -/
theorem hex2_spec : ∀ z : ℤ, 0 ≤ z → z ≤ 100 →
    (padStart2Zero (intHexUpperJS z)).length = 2 ∧
    (∀ c ∈ padStart2Zero (intHexUpperJS z), isHexUpperCh c = true) ∧
    hexValBE (padStart2Zero (intHexUpperJS z)) = z.toNat := by
  intro z h0 h100
  interval_cases z <;> exact ⟨by decide, by decide, by decide⟩

/-- Uppercasing sends lowercase base-36 digit codes to uppercase ones. -/
theorem upper_base36 (c : Nat) (hc : isBase36LowerCh c = true) :
    isBase36UpperCh (if 97 ≤ c ∧ c ≤ 122 then c - 32 else c) = true := by
  simp only [isBase36LowerCh, Bool.or_eq_true, Bool.and_eq_true,
    decide_eq_true_eq] at hc
  by_cases h : 97 ≤ c ∧ c ≤ 122
  · rw [if_pos h]
    simp only [isBase36UpperCh, Bool.or_eq_true, Bool.and_eq_true,
      decide_eq_true_eq]
    omega
  · rw [if_neg h]
    simp only [isBase36UpperCh, Bool.or_eq_true, Bool.and_eq_true,
      decide_eq_true_eq]
    omega

/-- C10: Genetic encoder format.  With vitals in `[0, 100]` and a drawn
random string `rndStr = Math.random().toString(36)` long enough to supply
the substring, the stage-transition token is
`EVO-` ++ two-hex-digit health ++ water ++ fertilizer ++ `-` ++ a
2-character uppercase base-36 suffix, each hex pair zero-padded, uppercase
and decoding to the truncated vital; without vitals the token is
`prefix-` ++ a 4-character uppercase base-36 suffix. -/
theorem c10_encoder : ∀ (pfx : List Nat) (health water fertilizer : ℚ)
    (rndStr : List Nat),
    0 ≤ health → health ≤ 100 → 0 ≤ water → water ≤ 100 →
    0 ≤ fertilizer → fertilizer ≤ 100 →
    (∀ c ∈ rndStr.drop 2, isBase36LowerCh c = true) → 6 ≤ rndStr.length →
    (∃ hh ww ff rr,
      generateDNASegment pfx (some (health, water, fertilizer)) rndStr
          = jsStr "EVO-" ++ hh ++ ww ++ ff ++ [45] ++ rr ∧
        hh.length = 2 ∧ ww.length = 2 ∧ ff.length = 2 ∧
        (∀ c ∈ hh ++ ww ++ ff, isHexUpperCh c = true) ∧
        hexValBE hh = (⌊health⌋).toNat ∧ hexValBE ww = (⌊water⌋).toNat ∧
        hexValBE ff = (⌊fertilizer⌋).toNat ∧
        rr.length = 2 ∧ (∀ c ∈ rr, isBase36UpperCh c = true)) ∧
    (∃ rr, generateDNASegment pfx none rndStr = pfx ++ [45] ++ rr ∧
      rr.length = 4 ∧ (∀ c ∈ rr, isBase36UpperCh c = true)) := by
  intro pfx health water fertilizer rndStr hh0 hh1 hw0 hw1 hf0 hf1 hrc hrl
  have hfl : ∀ q : ℚ, 0 ≤ q → q ≤ 100 → 0 ≤ ⌊q⌋ ∧ ⌊q⌋ ≤ 100 := by
    intro q hq0 hq1
    constructor
    · exact Int.le_floor.mpr (by exact_mod_cast hq0)
    · have := Int.floor_le_floor hq1
      simpa using this
  have hup : ∀ (k : Nat) (l : List Nat), (∀ c ∈ l, isBase36LowerCh c = true) →
      ∀ c ∈ jsToUpper (l.take k), isBase36UpperCh c = true := by
    intro k l hl c hc
    simp only [jsToUpper, List.mem_map] at hc
    obtain ⟨c0, hc0, rfl⟩ := hc
    exact upper_base36 c0 (hl c0 (List.mem_of_mem_take hc0))
  have hlen : ∀ k : Nat, k + 2 ≤ rndStr.length →
      (jsToUpper ((rndStr.drop 2).take k)).length = k := by
    intro k hk
    simp only [jsToUpper, List.length_map, List.length_take, List.length_drop]
    omega
  obtain ⟨hH0, hH1⟩ := hfl health hh0 hh1
  obtain ⟨hW0, hW1⟩ := hfl water hw0 hw1
  obtain ⟨hF0, hF1⟩ := hfl fertilizer hf0 hf1
  obtain ⟨eH1, eH2, eH3⟩ := hex2_spec _ hH0 hH1
  obtain ⟨eW1, eW2, eW3⟩ := hex2_spec _ hW0 hW1
  obtain ⟨eF1, eF2, eF3⟩ := hex2_spec _ hF0 hF1
  constructor
  · refine ⟨padStart2Zero (intHexUpperJS ⌊health⌋),
      padStart2Zero (intHexUpperJS ⌊water⌋),
      padStart2Zero (intHexUpperJS ⌊fertilizer⌋),
      jsToUpper ((rndStr.drop 2).take 2), rfl, eH1, eW1, eF1, ?_, eH3, eW3, eF3,
      hlen 2 (by omega), hup 2 (rndStr.drop 2) hrc⟩
    intro c hc
    simp only [List.mem_append] at hc
    rcases hc with (hc | hc) | hc
    exacts [eH2 c hc, eW2 c hc, eF2 c hc]
  · refine ⟨jsToUpper ((rndStr.drop 2).take 4), rfl, hlen 4 (by omega),
      hup 4 (rndStr.drop 2) hrc⟩

/-- C10 witness: the encoder applied to vitals `(95.5, 50, 0)` and the drawn
random string `"0.k2x9ab"`. -/
theorem c10_encoder_witness :
    (∃ hh ww ff rr,
      generateDNASegment (jsStr "PIN") (some (mkRat 191 2, mkRat 50 1, mkRat 0 1))
          (jsStr "0.k2x9ab")
          = jsStr "EVO-" ++ hh ++ ww ++ ff ++ [45] ++ rr ∧
        hh.length = 2 ∧ ww.length = 2 ∧ ff.length = 2 ∧
        (∀ c ∈ hh ++ ww ++ ff, isHexUpperCh c = true) ∧
        hexValBE hh = (⌊(mkRat 191 2 : ℚ)⌋).toNat ∧
        hexValBE ww = (⌊(mkRat 50 1 : ℚ)⌋).toNat ∧
        hexValBE ff = (⌊(mkRat 0 1 : ℚ)⌋).toNat ∧
        rr.length = 2 ∧ (∀ c ∈ rr, isBase36UpperCh c = true)) ∧
    (∃ rr, generateDNASegment (jsStr "PIN") none (jsStr "0.k2x9ab")
        = jsStr "PIN" ++ [45] ++ rr ∧
      rr.length = 4 ∧ (∀ c ∈ rr, isBase36UpperCh c = true)) :=
  c10_encoder (jsStr "PIN") (mkRat 191 2) (mkRat 50 1) (mkRat 0 1)
    (jsStr "0.k2x9ab") (by decide) (by norm_num [Rat.mkRat_eq_div])
    (by decide) (by norm_num [Rat.mkRat_eq_div])
    (by decide) (by norm_num [Rat.mkRat_eq_div])
    (by decide) (by decide)
